import Mathlib

/-!
Verification development for the crewAI agent execution core: the
CacheHandler, the CacheTools cache reader, the RPMController rate limiter
and the CrewAgentExecutor loop, shallowly embedded from the Python sources.
Python strings are modelled by Lean strings; stateful objects are modelled
by explicit state passing; a Python call that never returns (for example a
thread blocked forever on a lock) is modelled by the value none.
-/

namespace Crewai

/-- Whitespace characters recognised by Python str.strip with no argument
(the ASCII ones; the inputs of interest contain no other whitespace). -/
def isPyWs (c : Char) : Bool :=
  c = ' ' || c = '\t' || c = '\n' || c = '\r' || c = '\x0b' || c = '\x0c'

/-- Python str.strip on a character list: drop whitespace from both ends. -/
def pyStripL (l : List Char) : List Char :=
  ((l.dropWhile isPyWs).reverse.dropWhile isPyWs).reverse

/-- Python str.strip. -/
def pyStrip (s : String) : String :=
  ⟨pyStripL s.data⟩

/-- Python str of an optional string: str(None) is the text "None". -/
def pyStr (o : Option String) : String :=
  match o with
  | none => "None"
  | some s => s

/-- Does the second character list start with the first one? -/
def startsWithL : List Char → List Char → Bool
  | [], _ => true
  | _ :: _, [] => false
  | a :: as, b :: bs => a = b && startsWithL as bs

/-- Python str.split with a non-empty separator, on character lists. The
first argument is fuel, always called with more fuel than the length of the
scanned list; acc holds the characters of the current chunk, reversed. -/
def pySplitAux (sep : List Char) : Nat → List Char → List Char → List (List Char)
  | 0, s, acc => [acc.reverse ++ s]
  | _ + 1, [], acc => [acc.reverse]
  | fuel + 1, c :: rest, acc =>
    if startsWithL sep (c :: rest) then
      acc.reverse :: pySplitAux sep fuel ((c :: rest).drop sep.length) []
    else
      pySplitAux sep fuel rest (c :: acc)

/-- Python s.split(sep) for a non-empty separator sep. -/
def pySplit (s sep : String) : List String :=
  (pySplitAux sep.data (s.data.length + 1) s.data []).map (fun l => ⟨l⟩)

/-- The backing store of CacheHandler: a Python dict from key strings to
output strings. A write prepends and a read takes the first hit, which is
exactly the last-write-wins lookup of the dict. -/
abbrev Cache := List (String × String)

/-- Python dict lookup on the modelled store: the most recent binding. -/
def dictGet : Cache → String → Option String
  | [], _ => none
  | (k1, v) :: rest, k => if k1 = k then some v else dictGet rest k

namespace CacheHandler

/-- CacheHandler.add: trim the input and store the output under the key
built as tool, a dash, then the trimmed input. -/
def add (c : Cache) (tool input output : String) : Cache :=
  (tool ++ "-" ++ pyStrip input, output) :: c

/-- CacheHandler.read: trim the input and look the same key up. -/
def read (c : Cache) (tool input : String) : Option String :=
  dictGet c (tool ++ "-" ++ pyStrip input)

end CacheHandler

/-- CacheTools.hit_cache: decode a key of the form tool:NAME|input:ARGS by
the two Python split calls, trim both parts, and read the cache. A missing
delimiter makes the Python indexing raise IndexError; both that error and a
plain cache miss surface here as none (the claims below only ever reach
this function on keys carrying both delimiters). -/
def hit_cache (c : Cache) (key : String) : Option String :=
  match (pySplit key "tool:").get? 1 with
  | none => none
  | some seg =>
    match (pySplit seg "|input:").get? 0, (pySplit seg "|input:").get? 1 with
    | some t, some ti => CacheHandler.read c (pyStrip t) (pyStrip ti)
    | _, _ => none

/-- State of an RPMController: the configured cap (None disables the
limiter), the current counter, and whether the single non-reentrant
threading.Lock of the controller is held. The periodic 60 second timer
thread is not modelled; all claims speak about calls within one window. -/
structure RPMState where
  max_rpm : Option Nat
  current : Nat
  lockHeld : Bool
deriving DecidableEq, Repr

/-- Acquiring the threading.Lock: a non-reentrant lock that is already held
can never be acquired again on the same thread of control, so the acquire
never returns, modelled as none. -/
def lockAcquire (s : RPMState) : Option RPMState :=
  if s.lockHeld then none else some { s with lockHeld := true }

/-- Releasing the threading.Lock at the end of a with block. -/
def lockRelease (s : RPMState) : RPMState :=
  { s with lockHeld := false }

/-- RPMController._wait_for_next_minute: sleep 60 seconds (wall-clock time
is not part of the model state), then, under the lock, set the counter
to 0. -/
def wait_for_next_minute (s : RPMState) : Option RPMState :=
  match lockAcquire s with
  | none => none
  | some s1 => some (lockRelease { s1 with current := 0 })

/-- RPMController.check_or_wait. Python tests the cap for truthiness, so a
cap of None or 0 short-circuits to True. Otherwise the body runs inside a
with-lock block; in the over-cap branch _wait_for_next_minute is called
while that lock is still held. A result of none means the call never
returns. -/
def check_or_wait (s : RPMState) : Option (Bool × RPMState) :=
  match s.max_rpm with
  | none => some (true, s)
  | some m =>
    if m = 0 then some (true, s)
    else
      match lockAcquire s with
      | none => none
      | some s1 =>
        if s1.current < m then
          some (true, lockRelease { s1 with current := s1.current + 1 })
        else
          match wait_for_next_minute s1 with
          | none => none
          | some s2 => some (true, lockRelease { s2 with current := 1 })

/-- The controller state right after construction: the model_validator
reset_counter sets the counter to 0 under the (free) lock. -/
def rpmInit (m : Option Nat) : RPMState :=
  ⟨m, 0, false⟩

/-- Run n consecutive check_or_wait calls, collecting the returned
Booleans; none as soon as one call never returns. -/
def acquireRuns : Nat → RPMState → Option (List Bool × RPMState)
  | 0, s => some ([], s)
  | n + 1, s =>
    match check_or_wait s with
    | none => none
    | some (b, s1) =>
      match acquireRuns n s1 with
      | none => none
      | some (bs, s2) => some (b :: bs, s2)

/-- A langchain AgentAction: requested tool name, tool input, raw log. -/
structure AgentAction where
  tool : String
  tool_input : String
  log : String
deriving DecidableEq, Repr

/-- A langchain AgentFinish; return_values carries the output entry, which
is whatever the producing code put there (a tool function may return None,
hence the Option). -/
structure AgentFinish where
  output : Option String
  log : String
deriving DecidableEq, Repr

/-- An OutputParserException as it reaches the except branch of
_iter_next_step: str(e), the observation and llm_output payloads (both
optional in langchain) and the send_to_llm flag. -/
structure ParseFailure where
  errStr : String
  observation : Option String
  llm_output : Option String
  send_to_llm : Bool
deriving DecidableEq, Repr

/-- The handle_parsing_errors configuration: a Boolean, a fixed string
override, or a handler invoked on the parse failure. -/
inductive HandleParsingErrors where
  | ofBool (b : Bool)
  | ofString (s : String)
  | ofHandler (f : ParseFailure → String)

/-- An entry of the tool dispatch table: a langchain BaseTool with its
name, its return_direct flag, and its run function. A Python tool function
may return None, hence the Option result. -/
structure Tool where
  name : String
  return_direct : Bool
  run : String → Option String

/-- The name_to_tool_map dict: keys in first-insertion order, with a later
insert of an existing key overwriting the value in place. -/
abbrev ToolMap := List (String × Tool)

/-- Python dict insertion: overwrite in place when the key exists,
otherwise append. -/
def dinsert (m : ToolMap) (k : String) (t : Tool) : ToolMap :=
  if (m.find? (fun p => p.1 = k)).isSome then
    m.map (fun p => if p.1 = k then (k, t) else p)
  else
    m ++ [(k, t)]

/-- Python dict lookup in the tool map. -/
def toolGet (m : ToolMap) (k : String) : Option Tool :=
  (m.find? (fun p => p.1 = k)).map (fun p => p.2)

/-- Python list(name_to_tool_map.keys()). -/
def dkeys (m : ToolMap) : List String :=
  m.map (fun p => p.1)

/-- The dict comprehension building name_to_tool_map from self.tools. -/
def buildToolMap (ts : List Tool) : ToolMap :=
  ts.foldl (fun m t => dinsert m t.name t) []

/-- The decoded planner output received by _iter_next_step: a single
action, a batch of actions, a final answer, a cache hit, or a raised
OutputParserException. The CacheHit carrier class is not among the sources;
modelled from the spec as the reserved cache-hit variant wrapping the
original action together with the shared cache, matching its two uses
output.action and output.cache in the executor. -/
inductive PlanOutput where
  | action (a : AgentAction)
  | batch (as : List AgentAction)
  | finish (f : AgentFinish)
  | cacheHit (a : AgentAction) (cache : Cache)
  | parseFailure (e : ParseFailure)

/-- One consumed (action, observation) pair of the intermediate steps. -/
abbrev Step := AgentAction × Option String

/-- Outcome of one _take_next_step call: a final answer, the list of
consumed steps, or a raised Python exception carried as a message. -/
inductive StepOutcome where
  | finish (f : AgentFinish)
  | steps (ss : List Step)
  | raised (msg : String)
deriving DecidableEq, Repr

/-- Modelled from the spec: the fixed used-too-many-tools error text that
_force_answer reads from the i18n error table; the translations JSON file
is not among the sources, so the text is this fixed string constant. -/
def usedTooManyTools : String :=
  "used too many tools"

/-- Modelled from the spec: the langchain InvalidTool observation, naming
the requested tool and enumerating the valid tool names. -/
def invalidToolObs (requested : String) (names : List String) : String :=
  requested ++ " is not a valid tool, try one of [" ++
    String.intercalate ", " names ++ "]."

/-- Modelled from the spec: the langchain ExceptionTool echoes its query,
so running it on the synthesized observation returns that observation. -/
def exceptionToolRun (query : String) : String :=
  query

/-- The message of the ValueError raised when parsing error recovery is
switched off. -/
def parsingErrorFatal (err : String) : String :=
  "An output parsing error occurred. In order to pass this error back to the agent and have it try again, pass `handle_parsing_errors=True` to the AgentExecutor. This is the error: " ++ err

/-- set_force_answer_max_iterations: the precomputed threshold is
max_iterations minus 2 (Python integer arithmetic, so it may be
negative). -/
def set_force_answer_max_iterations (max_iterations : Int) : Int :=
  max_iterations - 2

/-- _should_force_answer: True exactly when the iteration counter equals
the precomputed threshold. -/
def should_force_answer (iterations : Nat) (threshold : Int) : Bool :=
  if (iterations : Int) = threshold then true else false

/-- _force_answer: the forced step keeps the action and replaces the
observation by the fixed used-too-many-tools text. -/
def force_answer (a : AgentAction) : Step :=
  (a, some usedTooManyTools)

/-- CacheTools(cache_handler).tool(): a tool named Hit Cache whose function
is hit_cache on that cache; Tool.from_function leaves return_direct at the
langchain default False. -/
def cacheTool (c : Cache) : Tool :=
  ⟨"Hit Cache", false, hit_cache c⟩

/-- The cache-hit rewrite of _iter_next_step: copy the action, encode the
original tool and input into the cache tool input, and retarget the copy at
the cache tool name. -/
def rewriteCacheHit (a : AgentAction) : AgentAction :=
  { a with
    tool_input := "tool:" ++ a.tool ++ "|input:" ++ a.tool_input,
    tool := "Hit Cache" }

/-- The body of the action loop of _iter_next_step for one action: run the
tool when its name is in the dispatch table, otherwise produce the
invalid-tool observation over the currently known tool names. The second
component records the (tool name, input) of each dispatched tool run. -/
def runAgentAction (map : ToolMap) (a : AgentAction) :
    Step × List (String × String) :=
  match toolGet map a.tool with
  | some t => ((a, t.run a.tool_input), [(a.tool, a.tool_input)])
  | none => ((a, some (invalidToolObs a.tool (dkeys map))), [])

/-- The action loop of _iter_next_step over a batch, in order, with the
concatenated trace of dispatched tool runs. -/
def runActions (map : ToolMap) : List AgentAction →
    List Step × List (String × String)
  | [] => ([], [])
  | a :: rest =>
    let sr := runAgentAction map a
    let rr := runActions map rest
    (sr.1 :: rr.1, sr.2 ++ rr.2)

/-- The color_mapping dict of _call, modelled by its key set.
get_color_mapping (a langchain helper outside the sources) assigns one
color per configured tool name, so its keys are exactly the configured
tool names; the colors themselves play no role in any claim, only which
keys exist, because the cache-hit branch of _iter_next_step subscripts
this dict with the original tool name and Python raises KeyError when the
key is absent. -/
def color_mapping_keys (tools : List Tool) : List String :=
  dkeys (buildToolMap tools)

/-- _iter_next_step composed with the langchain _consume_next_step that
_take_next_step applies to the yielded values (modelled from the spec: the
consumed value is the final answer when one was yielded, and otherwise the
list of yielded (action, observation) steps). The planner call itself is
the given decoded PlanOutput. In the forced-answer branch the code reads
output.action, which only exists on an action or a cache hit: on a final
answer or a batch list Python raises AttributeError. In the cache-hit
branch the code reads color_mapping[action.tool], which raises KeyError
when the original tool name is not among the configured tools; on success
it also inserts the cache tool name into both dicts, so the later
color_mapping[agent_action.tool] lookup of the action loop always
succeeds for a dispatched tool and needs no separate modelling. -/
def iter_next_step (tools : List Tool) (handle : HandleParsingErrors)
    (iterations : Nat) (threshold : Int) (planned : PlanOutput) :
    StepOutcome × List (String × String) :=
  let map := buildToolMap tools
  match planned with
  | .parseFailure e =>
    let raiseError : Bool :=
      match handle with
      | .ofBool b => !b
      | _ => false
    if raiseError then
      (.raised (parsingErrorFatal e.errStr), [])
    else
      let textObs : String × String :=
        match handle with
        | .ofBool _ =>
          if e.send_to_llm then (pyStr e.llm_output, pyStr e.observation)
          else (e.errStr, "Invalid or incomplete response")
        | .ofString s => (e.errStr, s)
        | .ofHandler f => (e.errStr, f e)
      let output : AgentAction := ⟨"_Exception", textObs.2, textObs.1⟩
      let observation := exceptionToolRun output.tool_input
      if should_force_answer iterations threshold then
        (.steps [force_answer output], [])
      else
        (.steps [(output, some observation)], [])
  | .finish f =>
    if should_force_answer iterations threshold then
      (.raised "AttributeError: AgentFinish object has no attribute action", [])
    else
      (.finish f, [])
  | .action a =>
    if should_force_answer iterations threshold then
      (.steps [force_answer a], [])
    else
      let r := runActions map [a]
      (.steps r.1, r.2)
  | .batch as =>
    if should_force_answer iterations threshold then
      (.raised "AttributeError: list object has no attribute action", [])
    else
      let r := runActions map as
      (.steps r.1, r.2)
  | .cacheHit a c =>
    if should_force_answer iterations threshold then
      (.steps [force_answer a], [])
    else
      let t := cacheTool c
      let map1 := dinsert map t.name t
      if (color_mapping_keys tools).contains a.tool then
        let r := runActions map1 [rewriteCacheHit a]
        (.steps r.1, r.2)
      else
        (.raised "KeyError: color_mapping has no entry for the original tool name", [])

/-- Modelled from the spec: the langchain _should_continue condition with
no wall-clock budget configured, true while the iteration count is below
max_iterations. -/
def should_continue_iters (iterations max_iterations : Nat) : Bool :=
  iterations < max_iterations

/-- Modelled from the spec: the final answer built by the langchain
return_stopped_response under the default force early-stopping method, a
fixed non-empty best-effort text. -/
def stoppedResponse : AgentFinish :=
  ⟨some "Agent stopped due to iteration limit or time limit.", ""⟩

/-- Modelled from the spec: the langchain _get_tool_return check applied in
_call when the step output has length one; a step whose tool is in the
table built from the configured tools and is marked return_direct becomes a
direct final answer carrying that observation. -/
def getToolReturn (tools : List Tool) (s : Step) : Option AgentFinish :=
  match toolGet (buildToolMap tools) s.1.tool with
  | some t => if t.return_direct then some ⟨s.2, ""⟩ else none
  | none => none

/-- Result of _call: the final answer (from the planner, from a direct
return, or the stopped response) together with the accumulated intermediate
steps, or a raised Python exception. -/
inductive RunResult where
  | finished (f : AgentFinish) (hist : List Step)
  | raised (msg : String)
deriving DecidableEq, Repr

/-- The while loop of _call with explicit fuel; none means the fuel ran
out before the loop exited (the lemmas below show fuel max_iterations + 1
always suffices). The planner argument models agent.plan applied to the
accumulated intermediate steps (the default _prepare_intermediate_steps is
the identity). The rate-limiter gate of _call is request_within_rpm_limit,
which is either unset or check_or_wait, and check_or_wait returns True
whenever it returns at all, so the gate is modelled as passing; its
blocking behaviour is treated with the rate-limiter claims. -/
def callLoop (tools : List Tool) (handle : HandleParsingErrors)
    (planner : List Step → PlanOutput) (max_iterations : Nat) :
    Nat → Nat → List Step → Option RunResult
  | 0, _, _ => none
  | fuel + 1, iterations, hist =>
    if should_continue_iters iterations max_iterations then
      let threshold := set_force_answer_max_iterations (max_iterations : Int)
      match iter_next_step tools handle iterations threshold (planner hist) with
      | (.raised m, _) => some (.raised m)
      | (.finish f, _) => some (.finished f hist)
      | (.steps ss, _) =>
        let hist1 := hist ++ ss
        if ss.length = 1 then
          match getToolReturn tools (ss.headD (⟨"", "", ""⟩, none)) with
          | some f => some (.finished f hist1)
          | none => callLoop tools handle planner max_iterations fuel (iterations + 1) hist1
        else
          callLoop tools handle planner max_iterations fuel (iterations + 1) hist1
    else
      some (.finished stoppedResponse hist)

/-- _call: run the loop from iteration 0 with empty history. -/
def call (tools : List Tool) (handle : HandleParsingErrors)
    (planner : List Step → PlanOutput) (max_iterations : Nat) :
    Option RunResult :=
  callLoop tools handle planner max_iterations (max_iterations + 1) 0 []

/-! Helper lemmas about dropWhile and the Python strip model. -/

/-- Dropping a prefix twice drops it once. -/
theorem dropWhile_dropWhile (p : Char → Bool) (l : List Char) :
    (l.dropWhile p).dropWhile p = l.dropWhile p := by
  induction l with
  | nil => rfl
  | cons a t ih =>
    cases h : p a <;> simp [List.dropWhile_cons, h, ih]

/-- The head surviving a dropWhile does not satisfy the predicate. -/
theorem head_dropWhile_false (p : Char → Bool) (l : List Char) (a : Char)
    (h : (l.dropWhile p).head? = some a) : p a = false := by
  induction l with
  | nil => simp [List.dropWhile_nil] at h
  | cons b t ih =>
    rw [List.dropWhile_cons] at h
    by_cases hb : p b = true
    · rw [if_pos hb] at h
      exact ih h
    · rw [if_neg hb] at h
      simp only [List.head?_cons, Option.some.injEq] at h
      subst h
      simpa using hb

/-- dropWhile is the identity when the head does not satisfy the
predicate. -/
theorem dropWhile_eq_self_of (p : Char → Bool) (l : List Char)
    (h : ∀ a, l.head? = some a → p a = false) : l.dropWhile p = l := by
  cases l with
  | nil => rfl
  | cons b t =>
    rw [List.dropWhile_cons, h b rfl]
    simp

/-- dropWhile keeps the last element of a list it does not empty. -/
theorem getLast?_dropWhile (p : Char → Bool) (l : List Char)
    (h : l.dropWhile p ≠ []) : (l.dropWhile p).getLast? = l.getLast? := by
  induction l with
  | nil => simp at h
  | cons b t ih =>
    rw [List.dropWhile_cons]
    by_cases hb : p b = true
    · rw [if_pos hb]
      rw [List.dropWhile_cons, if_pos hb] at h
      rw [ih h]
      cases t with
      | nil => simp [List.dropWhile_nil] at h
      | cons c u => simp
    · rw [if_neg hb]

/-- The two-sided strip is idempotent on character lists. -/
theorem pyStripL_idem (l : List Char) : pyStripL (pyStripL l) = pyStripL l := by
  have hBB : ((l.dropWhile isPyWs).reverse.dropWhile isPyWs).dropWhile isPyWs
      = (l.dropWhile isPyWs).reverse.dropWhile isPyWs := dropWhile_dropWhile _ _
  show (((((l.dropWhile isPyWs).reverse.dropWhile isPyWs).reverse).dropWhile
      isPyWs).reverse.dropWhile isPyWs).reverse
      = ((l.dropWhile isPyWs).reverse.dropWhile isPyWs).reverse
  have h1 : (((l.dropWhile isPyWs).reverse.dropWhile isPyWs).reverse).dropWhile
      isPyWs = ((l.dropWhile isPyWs).reverse.dropWhile isPyWs).reverse := by
    apply dropWhile_eq_self_of
    intro a ha
    rw [List.head?_reverse] at ha
    by_cases hB : (l.dropWhile isPyWs).reverse.dropWhile isPyWs = []
    · rw [hB] at ha
      simp at ha
    · rw [getLast?_dropWhile _ _ hB] at ha
      have hrev : (l.dropWhile isPyWs).reverse.getLast?
          = (l.dropWhile isPyWs).head? := by
        rw [← List.head?_reverse, List.reverse_reverse]
      rw [hrev] at ha
      exact head_dropWhile_false isPyWs l a ha
  rw [h1, List.reverse_reverse, hBB]

/-- Python str.strip is idempotent. -/
theorem pyStrip_idem (s : String) : pyStrip (pyStrip s) = pyStrip s := by
  show (⟨pyStripL (pyStripL s.data)⟩ : String) = ⟨pyStripL s.data⟩
  rw [pyStripL_idem]

/-! Helper lemmas about the rate limiter. -/

/-- Under the cap, check_or_wait increments and returns True, leaving the
lock free. -/
theorem check_or_wait_ok (m cnt : Nat) (h0 : m ≠ 0) (h : cnt < m) :
    check_or_wait ⟨some m, cnt, false⟩ = some (true, ⟨some m, cnt + 1, false⟩) := by
  simp [check_or_wait, lockAcquire, lockRelease, h0, h]

/-- At the cap, check_or_wait never returns: the with-lock block of
check_or_wait still holds the non-reentrant lock when
_wait_for_next_minute tries to acquire it again. -/
theorem check_or_wait_stuck (m cnt : Nat) (h0 : m ≠ 0) (h : ¬cnt < m) :
    check_or_wait ⟨some m, cnt, false⟩ = none := by
  simp [check_or_wait, lockAcquire, wait_for_next_minute, h0, h]

/-- As long as the counter stays within the cap, consecutive calls all
return True immediately and just count up. -/
theorem acquireRuns_ok (k : Nat) : ∀ m cnt : Nat, m ≠ 0 → cnt + k ≤ m →
    acquireRuns k ⟨some m, cnt, false⟩
      = some (List.replicate k true, ⟨some m, cnt + k, false⟩) := by
  induction k with
  | zero =>
    intro m cnt h0 h
    simp [acquireRuns]
  | succ n ih =>
    intro m cnt h0 h
    have harith : cnt + 1 + n = cnt + (n + 1) := by omega
    simp only [acquireRuns, check_or_wait_ok m cnt h0 (by omega),
      ih m (cnt + 1) h0 (by omega), harith, List.replicate_succ]

/-! Helper lemmas about the dispatch table and the loop. -/

/-- A dict insert of a value from S keeps all stored values inside S. -/
theorem dinsert_values {S : List Tool} {m : ToolMap} {k : String} {t : Tool}
    (hm : ∀ p ∈ m, p.2 ∈ S) (ht : t ∈ S) :
    ∀ p ∈ dinsert m k t, p.2 ∈ S := by
  intro p hp
  unfold dinsert at hp
  by_cases hex : (m.find? (fun q => q.1 = k)).isSome
  · rw [if_pos hex] at hp
    obtain ⟨q, hq, hpq⟩ := List.mem_map.mp hp
    by_cases h1 : q.1 = k
    · rw [if_pos h1] at hpq
      rw [← hpq]
      exact ht
    · rw [if_neg h1] at hpq
      rw [← hpq]
      exact hm q hq
  · rw [if_neg hex] at hp
    rcases List.mem_append.mp hp with h | h
    · exact hm p h
    · simp only [List.mem_singleton] at h
      rw [h]
      exact ht

/-- Every value stored in the built name-to-tool map comes from the
configured tool list. -/
theorem buildToolMap_values (ts : List Tool) :
    ∀ p ∈ buildToolMap ts, p.2 ∈ ts := by
  suffices h : ∀ (us : List Tool) (m : ToolMap), (∀ t ∈ us, t ∈ ts) →
      (∀ p ∈ m, p.2 ∈ ts) →
      ∀ p ∈ us.foldl (fun m t => dinsert m t.name t) m, p.2 ∈ ts by
    exact h ts [] (fun t ht => ht) (by simp)
  intro us
  induction us with
  | nil =>
    intro m _ hm p hp
    exact hm p hp
  | cons u urest ih =>
    intro m hus hm p hp
    simp only [List.foldl_cons] at hp
    exact ih (dinsert m u.name u)
      (fun t h => hus t (List.mem_cons_of_mem _ h))
      (dinsert_values hm (hus u (List.mem_cons_self _ _))) p hp

/-- A successful dispatch-table lookup returns one of the configured
tools. -/
theorem toolGet_values {ts : List Tool} {k : String} {t : Tool}
    (h : toolGet (buildToolMap ts) k = some t) : t ∈ ts := by
  unfold toolGet at h
  cases hf : (buildToolMap ts).find? (fun p => p.1 = k) with
  | none => rw [hf] at h; simp at h
  | some q =>
    rw [hf] at h
    simp only [Option.map_some', Option.some.injEq] at h
    rw [← h]
    exact buildToolMap_values ts q (List.mem_of_find?_eq_some hf)

/-- With no tool marked return_direct, the direct-return check of _call
never fires. -/
theorem getToolReturn_none {tools : List Tool}
    (hall : ∀ t ∈ tools, t.return_direct = false) (s : Step) :
    getToolReturn tools s = none := by
  unfold getToolReturn
  cases hf : toolGet (buildToolMap tools) s.1.tool with
  | none => rfl
  | some t => simp [hall t (toolGet_values hf)]

/-- At the forced-answer threshold a decoded single action short-circuits
into the forced step with no tool run. -/
theorem iter_action_forced (tools : List Tool) (handle : HandleParsingErrors)
    (it : Nat) (thr : Int) (a : AgentAction) (h : (it : Int) = thr) :
    iter_next_step tools handle it thr (.action a)
      = (.steps [force_answer a], []) := by
  simp [iter_next_step, should_force_answer, h]

/-- Away from the forced-answer threshold a decoded single action goes
through the normal dispatch. -/
theorem iter_action_normal (tools : List Tool) (handle : HandleParsingErrors)
    (it : Nat) (thr : Int) (a : AgentAction) (h : (it : Int) ≠ thr) :
    iter_next_step tools handle it thr (.action a)
      = (.steps [(runAgentAction (buildToolMap tools) a).1],
         (runAgentAction (buildToolMap tools) a).2) := by
  simp [iter_next_step, should_force_answer, h, runActions]

/-- The action loop processes a batch elementwise in order: the steps are
the per-action steps in the order of the batch and the trace is the
concatenation of the per-action traces. -/
theorem runActions_eq (map : ToolMap) (as : List AgentAction) :
    runActions map as = (as.map (fun a => (runAgentAction map a).1),
      (as.map (fun a => (runAgentAction map a).2)).flatten) := by
  induction as with
  | nil => rfl
  | cons a rest ih => simp [runActions, ih]

/-- The action loop yields one step per action of the batch. -/
theorem runActions_length (map : ToolMap) (as : List AgentAction) :
    (runActions map as).1.length = as.length := by
  rw [runActions_eq]
  simp

/-- The loop of _call exits within the fuel bound: fuel exceeding the
remaining iteration budget always suffices, for every planner. -/
theorem callLoop_isSome (tools : List Tool) (handle : HandleParsingErrors)
    (planner : List Step → PlanOutput) (M : Nat) :
    ∀ fuel it hist, M - it < fuel →
      (callLoop tools handle planner M fuel it hist).isSome := by
  intro fuel
  induction fuel with
  | zero =>
    intro it hist h
    exact absurd h (by omega)
  | succ n ih =>
    intro it hist h
    rw [callLoop]
    by_cases hc : it < M
    · have hcb : should_continue_iters it M = true := by
        simp [should_continue_iters, hc]
      rw [hcb]
      simp only [if_true]
      rcases hi : iter_next_step tools handle it
          (set_force_answer_max_iterations (M : Int)) (planner hist) with ⟨out, tr⟩
      cases out with
      | raised m => simp
      | finish f => simp
      | steps ss =>
        simp only
        by_cases hl : ss.length = 1
        · rw [if_pos hl]
          cases hg : getToolReturn tools (ss.headD (⟨"", "", ""⟩, none)) with
          | some f => simp
          | none => simpa using ih (it + 1) (hist ++ ss) (by omega)
        · rw [if_neg hl]
          exact ih (it + 1) (hist ++ ss) (by omega)
    · have hcb : should_continue_iters it M = false := by
        simp [should_continue_iters, hc]
      rw [hcb]
      simp

/-- With no return_direct tool configured and a planner that always
decodes to a single action, the loop always runs out of its iteration
budget and returns the stopped response. -/
theorem callLoop_stopped (tools : List Tool) (handle : HandleParsingErrors)
    (planner : List Step → PlanOutput) (M : Nat)
    (hd : ∀ t ∈ tools, t.return_direct = false)
    (hp : ∀ h, ∃ a, planner h = .action a) :
    ∀ fuel it hist, M - it < fuel →
      ∃ h2, callLoop tools handle planner M fuel it hist
        = some (.finished stoppedResponse h2) := by
  intro fuel
  induction fuel with
  | zero =>
    intro it hist h
    exact absurd h (by omega)
  | succ n ih =>
    intro it hist h
    rw [callLoop]
    by_cases hc : it < M
    · have hcb : should_continue_iters it M = true := by
        simp [should_continue_iters, hc]
      rw [hcb]
      simp only [if_true]
      obtain ⟨a, ha⟩ := hp hist
      rw [ha]
      by_cases hf : (it : Int) = set_force_answer_max_iterations (M : Int)
      · rw [iter_action_forced tools handle it _ a hf]
        simp only [getToolReturn_none hd, List.length_cons, List.length_nil]
        exact ih (it + 1) (hist ++ [force_answer a]) (by omega)
      · rw [iter_action_normal tools handle it _ a hf]
        simp only [getToolReturn_none hd, List.length_cons, List.length_nil]
        exact ih (it + 1) (hist ++ [(runAgentAction (buildToolMap tools) a).1]) (by omega)
    · have hcb : should_continue_iters it M = false := by
        simp [should_continue_iters, hc]
      rw [hcb]
      exact ⟨hist, by simp⟩

/-! Claim theorems. -/

/-- C1: the claim states that once the counter has reached the cap,
check_or_wait blocks 60 seconds, sets the counter to exactly 1 and returns
True. The code instead never returns from that call: the first call under
cap 1 succeeds with counter 1, and the second call self-deadlocks, because
check_or_wait still holds the non-reentrant threading.Lock when
_wait_for_next_minute tries to acquire it again (modelled as none). -/
theorem C1_check_or_wait_deadlock :
    check_or_wait (rpmInit (some 1)) = some (true, ⟨some 1, 1, false⟩) ∧
    check_or_wait ⟨some 1, 1, false⟩ = none := by
  decide

/-- C7: under cap N, any k ≤ N consecutive acquire calls all return True
immediately with the counter counting up to k (so the counter never
exceeds N while permission is granted), and the call made with the counter
at the cap never returns. The claim instead states that the over-cap call
blocks until a reset and then returns; the code self-deadlocks on its
non-reentrant lock at that point. -/
theorem C7_rpm_window (N k : Nat) (hN : 1 ≤ N) (hk : k ≤ N) :
    acquireRuns k (rpmInit (some N))
      = some (List.replicate k true, ⟨some N, k, false⟩) ∧
    check_or_wait ⟨some N, N, false⟩ = none := by
  constructor
  · have h := acquireRuns_ok k N 0 (by omega) (by omega)
    simpa [rpmInit] using h
  · exact check_or_wait_stuck N N (by omega) (by omega)

/-- C7 witness: the statement at cap 2 with both immediate calls. -/
theorem C7_rpm_window_witness :
    acquireRuns 2 (rpmInit (some 2))
      = some (List.replicate 2 true, ⟨some 2, 2, false⟩) ∧
    check_or_wait ⟨some 2, 2, false⟩ = none :=
  C7_rpm_window 2 2 (by decide) (by decide)

/-- C5: a put followed by a get of the same tool and input returns the
stored output whatever was in the cache before (last write wins), and a
get whose constructed key matches no stored entry is absent. -/
theorem C5_cache_put_get :
    (∀ (c : Cache) (tool input output : String),
      CacheHandler.read (CacheHandler.add c tool input output) tool input
        = some output) ∧
    (∀ (c : Cache) (tool input : String),
      (∀ p ∈ c, p.1 ≠ tool ++ "-" ++ pyStrip input) →
      CacheHandler.read c tool input = none) := by
  constructor
  · intro c t i o
    simp [CacheHandler.read, CacheHandler.add, dictGet]
  · intro c t i h
    induction c with
    | nil => rfl
    | cons p rest ih =>
      obtain ⟨k, v⟩ := p
      unfold CacheHandler.read dictGet
      rw [if_neg (h (k, v) (List.mem_cons_self _ _))]
      exact ih (fun q hq => h q (List.mem_cons_of_mem _ hq))

/-- C5 witness: the put-get round trip and the absent read at concrete
inputs. -/
theorem C5_cache_put_get_witness :
    CacheHandler.read (CacheHandler.add [] "toolA" " in " "out") "toolA" " in "
      = some "out" ∧
    CacheHandler.read [] "toolA" "in" = none :=
  ⟨C5_cache_put_get.1 [] "toolA" " in " "out",
   C5_cache_put_get.2 [] "toolA" "in" (by simp)⟩

/-- C10: the cache key construction is not injective: the distinct pairs
(a, b-c) and (a-b, c) build the same key a-b-c, so the value stored for
the first pair is returned for the second. -/
theorem C10_cache_key_aliasing :
    CacheHandler.read (CacheHandler.add [] "a" "b-c" "O") "a-b" "c" = some "O" ∧
    ("a" : String) ≠ "a-b" ∧ ("b-c" : String) ≠ "c" := by
  decide

/-- C2: with max_iterations M, a decoded action is short-circuited into
the fixed used-too-many-tools observation with no tool run exactly when
the iteration counter equals the precomputed threshold M - 2; at any other
iteration counter the action is dispatched normally, running its tool. -/
theorem C2_forced_answer_exactly_at_threshold (tools : List Tool)
    (handle : HandleParsingErrors) (M it : Nat) (a : AgentAction) :
    ((it : Int) = (M : Int) - 2 →
      iter_next_step tools handle it (set_force_answer_max_iterations (M : Int))
        (.action a) = (.steps [(a, some usedTooManyTools)], [])) ∧
    ((it : Int) ≠ (M : Int) - 2 → ∀ t : Tool,
      toolGet (buildToolMap tools) a.tool = some t →
      iter_next_step tools handle it (set_force_answer_max_iterations (M : Int))
        (.action a) = (.steps [(a, t.run a.tool_input)], [(a.tool, a.tool_input)])) := by
  constructor
  · intro h
    rw [iter_action_forced tools handle it _ a
      (by unfold set_force_answer_max_iterations; exact h)]
    rfl
  · intro h t ht
    rw [iter_action_normal tools handle it _ a
      (by unfold set_force_answer_max_iterations; exact h)]
    simp [runAgentAction, ht]

/-- C2 witness: with M = 5 the threshold is 3; at iteration 3 the step is
forced with no tool run, and at iteration 0 the known tool runs. -/
theorem C2_forced_answer_witness :
    iter_next_step [] (.ofBool true) 3 (set_force_answer_max_iterations 5)
      (.action ⟨"x", "y", ""⟩)
      = (.steps [(⟨"x", "y", ""⟩, some usedTooManyTools)], []) ∧
    iter_next_step [⟨"x", false, fun i => some i⟩] (.ofBool true) 0
      (set_force_answer_max_iterations 5) (.action ⟨"x", "y", ""⟩)
      = (.steps [(⟨"x", "y", ""⟩, some "y")], [("x", "y")]) := by
  constructor
  · exact (C2_forced_answer_exactly_at_threshold [] (.ofBool true) 5 3
      ⟨"x", "y", ""⟩).1 (by decide)
  · exact (C2_forced_answer_exactly_at_threshold [⟨"x", false, fun i => some i⟩]
      (.ofBool true) 5 0 ⟨"x", "y", ""⟩).2 (by decide)
      ⟨"x", false, fun i => some i⟩ rfl

/-- C9: an action whose requested tool name is not in the dispatch table
never raises; away from the forced-answer threshold it always yields the
textual observation enumerating the currently known tool names, as a
normal step for the planner. -/
theorem C9_unknown_tool_feedback (tools : List Tool)
    (handle : HandleParsingErrors) (it : Nat) (thr : Int) (a : AgentAction)
    (hunknown : toolGet (buildToolMap tools) a.tool = none)
    (hnotforce : (it : Int) ≠ thr) :
    iter_next_step tools handle it thr (.action a)
      = (.steps [(a, some (invalidToolObs a.tool (dkeys (buildToolMap tools))))],
         []) := by
  rw [iter_action_normal tools handle it thr a hnotforce]
  simp [runAgentAction, hunknown]

/-- C9 witness: requesting the unknown tool gamma with only alpha
configured yields the enumerating observation. -/
theorem C9_unknown_tool_witness :
    iter_next_step [⟨"alpha", false, fun i => some i⟩] (.ofBool true) 0 5
      (.action ⟨"gamma", "z", ""⟩)
      = (.steps [(⟨"gamma", "z", ""⟩,
          some (invalidToolObs "gamma"
            (dkeys (buildToolMap [⟨"alpha", false, fun i => some i⟩]))))], []) ∧
    invalidToolObs "gamma" (dkeys (buildToolMap [⟨"alpha", false, fun i => some i⟩]))
      = "gamma is not a valid tool, try one of [alpha]." := by
  constructor
  · exact C9_unknown_tool_feedback [⟨"alpha", false, fun i => some i⟩]
      (.ofBool true) 0 5 ⟨"gamma", "z", ""⟩ rfl (by decide)
  · decide

/-- Away from the forced-answer threshold a decoded batch goes through the
normal dispatch loop. -/
theorem iter_batch_normal (tools : List Tool) (handle : HandleParsingErrors)
    (it : Nat) (thr : Int) (as : List AgentAction) (h : (it : Int) ≠ thr) :
    iter_next_step tools handle it thr (.batch as)
      = (.steps (runActions (buildToolMap tools) as).1,
         (runActions (buildToolMap tools) as).2) := by
  simp [iter_next_step, should_force_answer, h]

/-- C3: the claim states that in a batch, processing stops at the first
action whose tool is marked return-direct and the loop then ends with that
raw output. Counterexample: with alpha marked return-direct and the batch
[alpha, beta], the trace shows beta is dispatched after alpha, and the run
with max_iterations 1 ends with the budget-stop response carrying both
steps, not with the raw alpha output. -/
theorem C3_batch_direct_return_claim_false :
    (iter_next_step [⟨"alpha", true, fun i => some ("A:" ++ i)⟩,
        ⟨"beta", false, fun i => some ("B:" ++ i)⟩] (.ofBool true) 0 (-1)
        (.batch [⟨"alpha", "x", ""⟩, ⟨"beta", "y", ""⟩])).2
      = [("alpha", "x"), ("beta", "y")] ∧
    call [⟨"alpha", true, fun i => some ("A:" ++ i)⟩,
        ⟨"beta", false, fun i => some ("B:" ++ i)⟩] (.ofBool true)
        (fun _ => .batch [⟨"alpha", "x", ""⟩, ⟨"beta", "y", ""⟩]) 1
      = some (.finished stoppedResponse
          [(⟨"alpha", "x", ""⟩, some "A:x"), (⟨"beta", "y", ""⟩, some "B:y")]) ∧
    stoppedResponse.output ≠ some "A:x" := by
  decide

/-- C3 amended: a batch is processed strictly in the order returned, each
action individually checked against the dispatch table; the return-direct
flag ends the loop with the raw tool output only when the step output is a
single action, and a batch of length other than one is executed in full
after which the loop just continues. -/
theorem C3_batch_order_amended :
    (∀ (map : ToolMap) (as : List AgentAction),
      runActions map as = (as.map (fun a => (runAgentAction map a).1),
        (as.map (fun a => (runAgentAction map a).2)).flatten)) ∧
    (∀ (tools : List Tool) (handle : HandleParsingErrors) (M : Nat)
        (a : AgentAction) (t : Tool),
      toolGet (buildToolMap tools) a.tool = some t → t.return_direct = true →
      1 ≤ M → (0 : Int) ≠ (M : Int) - 2 →
      call tools handle (fun _ => .action a) M
        = some (.finished ⟨t.run a.tool_input, ""⟩ [(a, t.run a.tool_input)])) ∧
    (∀ (tools : List Tool) (handle : HandleParsingErrors)
        (planner : List Step → PlanOutput) (M fuel it : Nat) (hist : List Step)
        (as : List AgentAction),
      planner hist = .batch as → as.length ≠ 1 → it < M →
      (it : Int) ≠ (M : Int) - 2 →
      callLoop tools handle planner M (fuel + 1) it hist
        = callLoop tools handle planner M fuel (it + 1)
            (hist ++ (runActions (buildToolMap tools) as).1)) := by
  refine ⟨runActions_eq, ?_, ?_⟩
  · intro tools handle M a t ht hdir hM h0
    have hM1 : ∃ M0, M = M0 + 1 := ⟨M - 1, by omega⟩
    obtain ⟨M0, rfl⟩ := hM1
    unfold call
    rw [callLoop]
    have hcb : should_continue_iters 0 (M0 + 1) = true := by
      simp [should_continue_iters]
    rw [hcb]
    simp only [if_true]
    rw [iter_action_normal tools handle 0 _ a
      (by unfold set_force_answer_max_iterations; exact_mod_cast h0)]
    have hra : runAgentAction (buildToolMap tools) a
        = ((a, t.run a.tool_input), [(a.tool, a.tool_input)]) := by
      simp [runAgentAction, ht]
    rw [hra]
    have hg : getToolReturn tools (a, t.run a.tool_input)
        = some ⟨t.run a.tool_input, ""⟩ := by
      simp [getToolReturn, ht, hdir]
    simp [hg]
  · intro tools handle planner M fuel it hist as ha hlen hit h0
    rw [callLoop]
    have hcb : should_continue_iters it M = true := by
      simp [should_continue_iters, hit]
    rw [hcb]
    simp only [if_true]
    rw [ha, iter_batch_normal tools handle it _ as
      (by unfold set_force_answer_max_iterations; exact h0)]
    have hlen2 : ((runActions (buildToolMap tools) as).1).length ≠ 1 := by
      rw [runActions_length]
      exact hlen
    simp [hlen2]

/-- C3 witness: the singleton direct-return conjunct at concrete inputs;
one action on the return-direct tool alpha ends the run with the raw
output. -/
theorem C3_batch_order_witness :
    call [⟨"alpha", true, fun i => some ("A:" ++ i)⟩] (.ofBool true)
        (fun _ => .action ⟨"alpha", "x", ""⟩) 1
      = some (.finished ⟨some "A:x", ""⟩ [(⟨"alpha", "x", ""⟩, some "A:x")]) :=
  C3_batch_order_amended.2.1 [⟨"alpha", true, fun i => some ("A:" ++ i)⟩]
    (.ofBool true) 1 ⟨"alpha", "x", ""⟩ ⟨"alpha", true, fun i => some ("A:" ++ i)⟩
    rfl rfl (by decide) (by decide)

/-- C4: the claim states the loop always terminates within the iteration
budget and never raises, returning a non-empty stopped-response when no
final answer was produced. The loop does exit within the budget for every
planner, and a planner that always decodes to a single action does end in
the non-empty stopped response when no tool is return-direct; but a
planner whose decoded output is a final answer exactly at the forced
threshold makes the code raise AttributeError (output.action on an
AgentFinish), here at max_iterations 2 on the very first planning call. -/
theorem C4_loop_budget :
    (call [] (.ofBool true) (fun _ => .finish ⟨some "done", ""⟩) 2
      = some (.raised "AttributeError: AgentFinish object has no attribute action")) ∧
    (∀ (tools : List Tool) (handle : HandleParsingErrors)
        (planner : List Step → PlanOutput) (M : Nat),
      (call tools handle planner M).isSome) ∧
    (∀ (tools : List Tool) (handle : HandleParsingErrors)
        (planner : List Step → PlanOutput) (M : Nat),
      (∀ t ∈ tools, t.return_direct = false) →
      (∀ h, ∃ a : AgentAction, planner h = .action a) →
      ∃ hist, call tools handle planner M
        = some (.finished stoppedResponse hist)) ∧
    stoppedResponse.output
      = some "Agent stopped due to iteration limit or time limit." ∧
    ("Agent stopped due to iteration limit or time limit." : String) ≠ "" := by
  refine ⟨by decide, ?_, ?_, rfl, by decide⟩
  · intro tools handle planner M
    exact callLoop_isSome tools handle planner M (M + 1) 0 [] (by omega)
  · intro tools handle planner M hd hp
    exact callLoop_stopped tools handle planner M hd hp (M + 1) 0 [] (by omega)

/-- C4 witness: a planner that always decodes to the same action, with no
return-direct tool, ends in the stopped response within the budget. -/
theorem C4_loop_budget_witness :
    ∃ hist, call [] (.ofBool true) (fun _ => .action ⟨"t", "i", ""⟩) 3
      = some (.finished stoppedResponse hist) :=
  C4_loop_budget.2.2.1 [] (.ofBool true) (fun _ => .action ⟨"t", "i", ""⟩) 3
    (by simp) (fun h => ⟨⟨"t", "i", ""⟩, rfl⟩)

/-- C6: the claim states that for every tool T and input I the cache-hit
rewrite followed by the cache-reader decode returns the value stored for
(T, I). Counterexample: with the pair (a, x|input:y) the encoded key
mis-splits on the embedded delimiter and the read misses the stored value,
and with the untrimmed tool name " a" the decode strips the name so the
looked-up key differs from the stored one; in both cases the stored value
is present for the original pair. -/
theorem C6_cachehit_claim_false :
    (rewriteCacheHit ⟨"a", "x|input:y", ""⟩).tool_input
      = "tool:a|input:x|input:y" ∧
    CacheHandler.read (CacheHandler.add [] "a" "x|input:y" "V") "a" "x|input:y"
      = some "V" ∧
    hit_cache (CacheHandler.add [] "a" "x|input:y" "V")
      (rewriteCacheHit ⟨"a", "x|input:y", ""⟩).tool_input = none ∧
    (rewriteCacheHit ⟨" a", "x", ""⟩).tool_input = "tool: a|input:x" ∧
    CacheHandler.read (CacheHandler.add [] " a" "x" "V") " a" "x" = some "V" ∧
    hit_cache (CacheHandler.add [] " a" "x" "V")
      (rewriteCacheHit ⟨" a", "x", ""⟩).tool_input = none := by
  decide

/-- C6 amended: the cache-hit action is rewritten to the Hit Cache tool
with the encoded input tool:T|input:I, and whenever that encoding splits
back unambiguously (the two delimiters do not occur inside T or I, and T
carries no surrounding whitespace) the decode composed with the cache read
returns the value stored for (T, I); in particular, with the real
multiplier tool configured, the primed multiplier scenario returns 6
through the executor cache-hit pathway with only the Hit Cache tool
dispatched, the real multiplier tool never running; when the original
tool is not among the configured tools the pathway instead raises
KeyError on the color_mapping lookup. -/
theorem C6_cachehit_composition (c : Cache) (T I O lg : String)
    (h1 : pySplit ("tool:" ++ T ++ "|input:" ++ I) "tool:"
      = ["", T ++ "|input:" ++ I])
    (h2 : pySplit (T ++ "|input:" ++ I) "|input:" = [T, I])
    (h3 : pyStrip T = T) :
    (rewriteCacheHit ⟨T, I, lg⟩).tool = "Hit Cache" ∧
    (rewriteCacheHit ⟨T, I, lg⟩).tool_input = "tool:" ++ T ++ "|input:" ++ I ∧
    hit_cache (CacheHandler.add c T I O)
      (rewriteCacheHit ⟨T, I, lg⟩).tool_input = some O ∧
    iter_next_step [⟨"multiplier", false, fun i => some ("real:" ++ i)⟩]
      (.ofBool true) 0 13
      (.cacheHit ⟨"multiplier", "2,3", ""⟩
        (CacheHandler.add [] "multiplier" "2,3" "6"))
      = (.steps [(⟨"Hit Cache", "tool:multiplier|input:2,3", ""⟩, some "6")],
         [("Hit Cache", "tool:multiplier|input:2,3")]) ∧
    iter_next_step [⟨"multiplier", false, fun i => some ("real:" ++ i)⟩]
      (.ofBool true) 0 13
      (.cacheHit ⟨"multiplier", " 2,3 ", ""⟩
        (CacheHandler.add [] "multiplier" "2,3" "6"))
      = (.steps [(⟨"Hit Cache", "tool:multiplier|input: 2,3 ", ""⟩, some "6")],
         [("Hit Cache", "tool:multiplier|input: 2,3 ")]) ∧
    iter_next_step [] (.ofBool true) 0 13
      (.cacheHit ⟨"multiplier", "2,3", ""⟩
        (CacheHandler.add [] "multiplier" "2,3" "6"))
      = (.raised "KeyError: color_mapping has no entry for the original tool name",
         []) := by
  refine ⟨rfl, rfl, ?_, by decide, by decide, by decide⟩
  show hit_cache (CacheHandler.add c T I O) ("tool:" ++ T ++ "|input:" ++ I)
    = some O
  unfold hit_cache
  rw [h1]
  simp only [List.get?_cons_succ, List.get?_cons_zero]
  rw [h2]
  simp only [List.get?_cons_succ, List.get?_cons_zero]
  rw [h3]
  simp [CacheHandler.read, CacheHandler.add, dictGet, pyStrip_idem]

/-- C6 witness: the composition at the multiplier scenario with the padded
input. -/
theorem C6_cachehit_composition_witness :
    hit_cache (CacheHandler.add [] "multiplier" " 2,3 " "6")
      (rewriteCacheHit ⟨"multiplier", " 2,3 ", ""⟩).tool_input = some "6" :=
  (C6_cachehit_composition [] "multiplier" " 2,3 " "6" ""
    (by decide) (by decide) (by decide)).2.2.1

/-- C8: the claim states that the boolean-true recovery policy yields a
fixed observation string. Counterexample: a parse failure flagged
send_to_llm instead yields the failure's own observation text (with its
llm output as the action log); and at the forced-answer threshold the
synthesized step is replaced by the forced observation rather than being
appended like a normal tool step. -/
theorem C8_parse_policy_claim_false :
    iter_next_step [] (.ofBool true) 0 5
      (.parseFailure ⟨"err", some "planner repeated itself", some "llm out", true⟩)
      = (.steps [(⟨"_Exception", "planner repeated itself", "llm out"⟩,
          some "planner repeated itself")], []) ∧
    ("planner repeated itself" : String) ≠ "Invalid or incomplete response" ∧
    iter_next_step [] (.ofBool true) 5 5
      (.parseFailure ⟨"err", some "planner repeated itself", some "llm out", true⟩)
      = (.steps [(⟨"_Exception", "planner repeated itself", "llm out"⟩,
          some usedTooManyTools)], []) := by
  decide

/-- C8 amended: policy False propagates the parse failure as the fatal
ValueError; away from the forced-answer threshold, policy True synthesizes
the sentinel _Exception pseudo-action whose observation is the fixed
string for failures not flagged send_to_llm and the failure's own
observation otherwise, a string policy uses the caller string, and a
handler policy applies the handler to the failure; each synthesized step
is yielded like a normal tool step. -/
theorem C8_parse_policy (tools : List Tool) (it : Nat) (thr : Int)
    (e : ParseFailure) (s : String) (f : ParseFailure → String)
    (hnotforce : (it : Int) ≠ thr) :
    (iter_next_step tools (.ofBool false) it thr (.parseFailure e)
      = (.raised (parsingErrorFatal e.errStr), [])) ∧
    (e.send_to_llm = false →
      iter_next_step tools (.ofBool true) it thr (.parseFailure e)
        = (.steps [(⟨"_Exception", "Invalid or incomplete response", e.errStr⟩,
            some "Invalid or incomplete response")], [])) ∧
    (e.send_to_llm = true →
      iter_next_step tools (.ofBool true) it thr (.parseFailure e)
        = (.steps [(⟨"_Exception", pyStr e.observation, pyStr e.llm_output⟩,
            some (pyStr e.observation))], [])) ∧
    (iter_next_step tools (.ofString s) it thr (.parseFailure e)
      = (.steps [(⟨"_Exception", s, e.errStr⟩, some s)], [])) ∧
    (iter_next_step tools (.ofHandler f) it thr (.parseFailure e)
      = (.steps [(⟨"_Exception", f e, e.errStr⟩, some (f e))], [])) := by
  refine ⟨?_, ?_, ?_, ?_, ?_⟩
  · simp [iter_next_step]
  · intro hsend
    simp [iter_next_step, should_force_answer, hnotforce, exceptionToolRun, hsend]
  · intro hsend
    simp [iter_next_step, should_force_answer, hnotforce, exceptionToolRun, hsend]
  · simp [iter_next_step, should_force_answer, hnotforce, exceptionToolRun]
  · simp [iter_next_step, should_force_answer, hnotforce, exceptionToolRun]

/-- C8 witness: the three main policies at a concrete parse failure not
flagged send_to_llm. -/
theorem C8_parse_policy_witness :
    (iter_next_step [] (.ofBool false) 0 5
      (.parseFailure ⟨"boom", none, none, false⟩)
      = (.raised (parsingErrorFatal "boom"), [])) ∧
    (iter_next_step [] (.ofBool true) 0 5
      (.parseFailure ⟨"boom", none, none, false⟩)
      = (.steps [(⟨"_Exception", "Invalid or incomplete response", "boom"⟩,
          some "Invalid or incomplete response")], [])) ∧
    (iter_next_step [] (.ofString "use fallback") 0 5
      (.parseFailure ⟨"boom", none, none, false⟩)
      = (.steps [(⟨"_Exception", "use fallback", "boom"⟩,
          some "use fallback")], [])) :=
  ⟨(C8_parse_policy [] 0 5 ⟨"boom", none, none, false⟩ "use fallback"
      (fun e => e.errStr) (by decide)).1,
   (C8_parse_policy [] 0 5 ⟨"boom", none, none, false⟩ "use fallback"
      (fun e => e.errStr) (by decide)).2.1 rfl,
   (C8_parse_policy [] 0 5 ⟨"boom", none, none, false⟩ "use fallback"
      (fun e => e.errStr) (by decide)).2.2.2.1⟩

end Crewai
